/-
Verification of the Remote-Matrix content model (remote_matrix.py) against its
natural-language specification.

The Python module builds a declarative document (MatrixContent → Frame →
ContentPiece) and flattens it into a JSON-compatible structure.  This file is a
shallow embedding of that module: Python dicts become association lists with
Python's insertion/override semantics, the ContentPiece class hierarchy becomes
a tagged union, and fallible operations (list.remove, list indexing, and
PIL's getcolors returning None) return Option.
-/
import Mathlib

namespace RemoteMatrix

/-- JSON-representable values produced by flatten.  Objects keep insertion
order, as Python dicts do; `duration` never appears in any claim so no float
case is needed. -/
inductive Json where
  | str : String → Json
  | int : Int → Json
  | bool : Bool → Json
  | arr : List Json → Json
  | obj : List (String × Json) → Json

mutual

/-- Decidable equality for Json, by hand because deriving does not support
the nested lists. -/
def Json.decEq : (a b : Json) → Decidable (a = b)
  | .str a, .str b => decidable_of_iff (a = b) (by simp)
  | .int a, .int b => decidable_of_iff (a = b) (by simp)
  | .bool a, .bool b => decidable_of_iff (a = b) (by simp)
  | .arr a, .arr b =>
    match Json.decEqList a b with
    | isTrue h => isTrue (by rw [h])
    | isFalse h => isFalse (by intro hh; injection hh; contradiction)
  | .obj a, .obj b =>
    match Json.decEqObj a b with
    | isTrue h => isTrue (by rw [h])
    | isFalse h => isFalse (by intro hh; injection hh; contradiction)
  | .str _, .int _ => isFalse nofun
  | .str _, .bool _ => isFalse nofun
  | .str _, .arr _ => isFalse nofun
  | .str _, .obj _ => isFalse nofun
  | .int _, .str _ => isFalse nofun
  | .int _, .bool _ => isFalse nofun
  | .int _, .arr _ => isFalse nofun
  | .int _, .obj _ => isFalse nofun
  | .bool _, .str _ => isFalse nofun
  | .bool _, .int _ => isFalse nofun
  | .bool _, .arr _ => isFalse nofun
  | .bool _, .obj _ => isFalse nofun
  | .arr _, .str _ => isFalse nofun
  | .arr _, .int _ => isFalse nofun
  | .arr _, .bool _ => isFalse nofun
  | .arr _, .obj _ => isFalse nofun
  | .obj _, .str _ => isFalse nofun
  | .obj _, .int _ => isFalse nofun
  | .obj _, .bool _ => isFalse nofun
  | .obj _, .arr _ => isFalse nofun

/-- Decidable equality for lists of Json. -/
def Json.decEqList : (a b : List Json) → Decidable (a = b)
  | [], [] => isTrue rfl
  | [], _ :: _ => isFalse nofun
  | _ :: _, [] => isFalse nofun
  | a :: as, b :: bs =>
    match Json.decEq a b, Json.decEqList as bs with
    | isTrue h1, isTrue h2 => isTrue (by rw [h1, h2])
    | isFalse h1, _ => isFalse (by intro h; injection h; contradiction)
    | isTrue _, isFalse h2 => isFalse (by intro h; injection h; contradiction)

/-- Decidable equality for lists of key-value pairs. -/
def Json.decEqObj : (a b : List (String × Json)) → Decidable (a = b)
  | [], [] => isTrue rfl
  | [], _ :: _ => isFalse nofun
  | _ :: _, [] => isFalse nofun
  | (k, v) :: as, (l, w) :: bs =>
    match String.decEq k l, Json.decEq v w, Json.decEqObj as bs with
    | isTrue h0, isTrue h1, isTrue h2 => isTrue (by rw [h0, h1, h2])
    | isFalse h0, _, _ =>
      isFalse (by intro h; injection h with h3 h4; exact h0 (congrArg Prod.fst h3))
    | isTrue _, isFalse h1, _ =>
      isFalse (by intro h; injection h with h3 h4; exact h1 (congrArg Prod.snd h3))
    | isTrue _, isTrue _, isFalse h2 =>
      isFalse (by intro h; injection h; contradiction)

end

instance : DecidableEq Json := Json.decEq

/-- A Python dict: an association list in insertion order. -/
abbrev Dict := List (String × Json)

/-- Python dict assignment d[k] = v: replace the value in place if the key is
present, otherwise append the pair at the end. -/
def dinsert (d : Dict) (k : String) (v : Json) : Dict :=
  if d.any (fun p => p.1 = k) then
    d.map (fun p => if p.1 = k then (k, v) else p)
  else d ++ [(k, v)]

/-- Python dict splat update, the semantics of a literal containing **e:
insert every pair of e, left to right. -/
def dextend (d : Dict) (e : Dict) : Dict :=
  e.foldl (fun acc p => dinsert acc p.1 p.2) d

/-- Python dict lookup d[k]: the last inserted value wins. -/
def dlookup (d : Dict) (k : String) : Option Json :=
  (d.reverse.find? (fun p => p.1 = k)).map Prod.snd

/-- Equality of dicts as mappings: same keys bound to the same values,
insertion order ignored.  Quantifying over the keys mentioned on either side
keeps the predicate decidable; a key on neither side trivially looks up to
none on both. -/
def objEq (a b : Dict) : Prop :=
  ∀ k ∈ (a.map Prod.fst ++ b.map Prod.fst), dlookup a k = dlookup b k

instance (a b : Dict) : Decidable (objEq a b) := by
  unfold objEq; infer_instance

/-- Formats n in lowercase hex padded to at least two digits, the behavior of
Python f-string {n:02x} for nonnegative n. -/
def hex2 (n : Nat) : String :=
  let s := String.mk (Nat.toDigits 16 n)
  if s.length < 2 then "0" ++ s else s

/-- Color class: an RGB triple (remote_matrix.py lines 94-119). -/
structure Color where
  r : Nat
  g : Nat
  b : Nat
deriving DecidableEq

/-- Color.hex: "#" followed by the three components as two lowercase hex
digits each. -/
def Color.hex (c : Color) : String :=
  "#" ++ hex2 c.r ++ hex2 c.g ++ hex2 c.b

/-- Color.flatten: a one-key dict holding the hex code. -/
def Color.flatten (c : Color) : Dict :=
  [("color", Json.str c.hex)]

/-- Location class: a 2D integer coordinate (lines 122-137). -/
structure Location where
  x : Int
  y : Int
deriving DecidableEq

/-- Location.flatten: the two coordinates as a dict. -/
def Location.flatten (l : Location) : Dict :=
  [("x", Json.int l.x), ("y", Json.int l.y)]

/-- Python is dynamically typed, so the color and location slots of the
ContentPiece base class can in fact hold either a Color or a Location; the
Rectangle constructor (line 252) exploits this by passing its arguments to
the base constructor in swapped order. -/
inductive ColorOrLoc where
  | col : Color → ColorOrLoc
  | loc : Location → ColorOrLoc
deriving DecidableEq

/-- Dynamic dispatch of flatten on the slot content. -/
def ColorOrLoc.flatten : ColorOrLoc → Dict
  | .col c => c.flatten
  | .loc l => l.flatten

/-- Fields assigned by the abstract ContentPiece base class (lines 140-154). -/
structure ContentPieceBase where
  color : ColorOrLoc
  location : ColorOrLoc
deriving DecidableEq

/-- ContentPiece.__init__(location, color): missing color defaults to white,
missing location defaults to the origin (lines 148-154). -/
def ContentPieceBase.init (location : Option ColorOrLoc) (color : Option ColorOrLoc) :
    ContentPieceBase :=
  ⟨color.getD (ColorOrLoc.col ⟨255, 255, 255⟩), location.getD (ColorOrLoc.loc ⟨0, 0⟩)⟩

/-- ContentPiece.flatten (lines 156-161): the Python dict literal
\x7b**color.flatten(), **location.flatten()\x7d. -/
def ContentPieceBase.flatten (b : ContentPieceBase) : Dict :=
  dextend b.color.flatten b.location.flatten

/-- An RGB pixel as delivered by the external bitmap decoder. -/
abbrev RGB := Nat × Nat × Nat

/-- A decoded bitmap: width, height and the row-major pixel sequence. -/
structure Bitmap where
  width : Nat
  height : Nat
  pixels : List RGB
deriving DecidableEq

/-- View an RGB triple as a Color, the Python Color(*pixel). -/
def rgbColor (p : RGB) : Color :=
  ⟨p.1, p.2.1, p.2.2⟩

/-- Accumulates one pixel into a count-per-distinct-color list kept in
first-occurrence order. -/
def colorCountsStep (acc : List (Nat × RGB)) (p : RGB) : List (Nat × RGB) :=
  if acc.any (fun e => e.2 = p) then
    acc.map (fun e => if e.2 = p then (e.1 + 1, e.2) else e)
  else acc ++ [(1, p)]

/-- Counts of every distinct color of the pixel sequence, paired with the
color, in first-occurrence order. -/
def colorCounts (pixels : List RGB) : List (Nat × RGB) :=
  pixels.foldl colorCountsStep []

/-- PIL Image.getcolors(): the list of (count, color) pairs, or None when the
image has more than maxcolors = 256 distinct colors.  The order PIL returns is
an implementation detail of its hash table; this model fixes it to
first-occurrence order. -/
def getcolors (b : Bitmap) : Option (List (Nat × RGB)) :=
  if (colorCounts b.pixels).length ≤ 256 then some (colorCounts b.pixels) else none

/-- Stable insertion into a list sorted by descending count: the new element
goes before the first entry whose count does not exceed it, so among equal
counts earlier elements stay first. -/
def insertDesc (x : Nat × RGB) : List (Nat × RGB) → List (Nat × RGB)
  | [] => [x]
  | y :: ys => if y.1 ≤ x.1 then x :: y :: ys else y :: insertDesc x ys

/-- The Python colors.sort(key = count, reverse = True): list.sort is a stable
sort, and any two stable sorts of the same sequence under the same key agree,
so this stable insertion sort computes the same list. -/
def sortCountDesc (l : List (Nat × RGB)) : List (Nat × RGB) :=
  l.foldr insertDesc []

/-- The palette of the low-diversity branch: the getcolors list sorted by
descending count, counts stripped (lines 307-311). -/
def palette (cs : List (Nat × RGB)) : List RGB :=
  (sortCountDesc cs).map (fun e => e.2)

/-- Image.flatten (lines 297-331).  Python calls len on the result of
getcolors, which raises TypeError when getcolors returns None, hence the none
branch.  The Python branch condition len < w * h / 2 uses exact float
division; for integer operands it is equivalent to 2 * len < w * h, which is
how it is written here. -/
def Image.flattenDict (img : Bitmap) (location : ColorOrLoc) : Option Dict :=
  match getcolors img with
  | none => none
  | some cs =>
    if cs.length < 10 ∨ 2 * cs.length < img.width * img.height then
      some [("type", Json.str "image"),
            ("width", Json.int img.width),
            ("height", Json.int img.height),
            ("colors", Json.arr ((palette cs).map (fun c => Json.str (rgbColor c).hex))),
            ("pixels", Json.arr (img.pixels.map (fun p => Json.int ((palette cs).indexOf p)))),
            ("location", Json.obj location.flatten)]
    else
      some [("type", Json.str "image"),
            ("width", Json.int img.width),
            ("height", Json.int img.height),
            ("pixels", Json.arr (img.pixels.map (fun p => Json.str (rgbColor p).hex)))]

/-- The ContentPiece hierarchy as a tagged union: each case carries the
variant-specific fields plus the base-class slots. -/
inductive ContentPiece where
  | pixel : ContentPieceBase → ContentPiece
  | text : String → ContentPieceBase → ContentPiece
  | circle : Int → Bool → ContentPieceBase → ContentPiece
  | rect : Int → Int → Bool → ContentPieceBase → ContentPiece
  | triangle : Location → Location → Location → Bool → ContentPieceBase → ContentPiece
  | line : Location → ContentPieceBase → ContentPiece
  | image : Bitmap → ContentPieceBase → ContentPiece
deriving DecidableEq

/-- Pixel(location, color), lines 202-208. -/
def Pixel.init (location : Option Location) (color : Option Color) : ContentPiece :=
  .pixel (ContentPieceBase.init (location.map ColorOrLoc.loc) (color.map ColorOrLoc.col))

/-- Text(text, location, color), lines 164-171. -/
def Text.init (text : String) (location : Option Location) (color : Option Color) :
    ContentPiece :=
  .text text (ContentPieceBase.init (location.map ColorOrLoc.loc) (color.map ColorOrLoc.col))

/-- Circle(radius, fill, location, color), lines 181-191. -/
def Circle.init (radius : Int) (fill : Bool) (location : Option Location)
    (color : Option Color) : ContentPiece :=
  .circle radius fill
    (ContentPieceBase.init (location.map ColorOrLoc.loc) (color.map ColorOrLoc.col))

/-- Triangle(p1, p2, p3, fill, color), lines 217-231; passes None as the base
location. -/
def Triangle.init (p1 p2 p3 : Location) (fill : Bool) (color : Option Color) :
    ContentPiece :=
  .triangle p1 p2 p3 fill (ContentPieceBase.init none (color.map ColorOrLoc.col))

/-- Rectangle(width, height, fill, location, color), lines 243-255.  Line 252
reads super().__init__(color, location): the two arguments are passed in
swapped positions, so the base color slot receives the Location argument and
the base location slot receives the Color argument. -/
def Rectangle.init (width height : Int) (fill : Bool) (location : Option Location)
    (color : Option Color) : ContentPiece :=
  .rect width height fill
    (ContentPieceBase.init (color.map ColorOrLoc.col) (location.map ColorOrLoc.loc))

/-- Line(start_location, end_location, color), lines 267-277; a missing
end_location defaults to the origin. -/
def Line.init (start_location : Option Location) (end_location : Option Location)
    (color : Option Color) : ContentPiece :=
  .line (end_location.getD ⟨0, 0⟩)
    (ContentPieceBase.init (start_location.map ColorOrLoc.loc) (color.map ColorOrLoc.col))

/-- Image(bitmap, location), lines 287-295; an Image receives no color, so the
base assigns the default white. -/
def Image.init (img : Bitmap) (location : Option Location) : ContentPiece :=
  .image img (ContentPieceBase.init (location.map ColorOrLoc.loc) none)

/-- Flatten of each variant.  The dict literals carry their constant keys in
source order followed by the splatted base flatten; Triangle (lines 233-240)
nests its locations and color instead of splatting, and does not emit fill.
The image case can fail, so the result is an Option. -/
def ContentPiece.flatten : ContentPiece → Option Dict
  | .pixel base => some (dextend [("type", Json.str "pixel")] base.flatten)
  | .text t base => some (dextend [("type", Json.str "text"), ("text", Json.str t)] base.flatten)
  | .circle radius fill base =>
      some (dextend [("type", Json.str "circle"), ("radius", Json.int radius),
        ("fill", Json.bool fill)] base.flatten)
  | .rect width height fill base =>
      some (dextend [("type", Json.str "rect"), ("width", Json.int width),
        ("height", Json.int height), ("fill", Json.bool fill)] base.flatten)
  | .triangle p1 p2 p3 _ base =>
      some [("type", Json.str "triangle"), ("p1", Json.obj p1.flatten),
        ("p2", Json.obj p2.flatten), ("p3", Json.obj p3.flatten),
        ("color", Json.obj base.color.flatten)]
  | .line endLoc base =>
      some (dextend [("type", Json.str "line"),
        ("end_location", Json.obj endLoc.flatten)] base.flatten)
  | .image img base => Image.flattenDict img base.location

/-- Frame (lines 59-91): an element list and a duration.  The claims under
verification never inspect the duration value, so the float is modelled as a
rational. -/
structure Frame where
  elements : List ContentPiece
  duration : Rat
deriving DecidableEq

/-- Frame() with the defaults: no elements, duration 0. -/
def Frame.init : Frame :=
  ⟨[], 0⟩

/-- Frame.add (lines 73-75): append at the end. -/
def Frame.add (f : Frame) (e : ContentPiece) : Frame :=
  ⟨f.elements ++ [e], f.duration⟩

/-- Frame.remove (lines 77-79): Python list.remove drops the first occurrence
and raises ValueError, leaving the list untouched, when the element is
absent. -/
def Frame.remove (f : Frame) (e : ContentPiece) : Option Frame :=
  if e ∈ f.elements then some ⟨f.elements.erase e, f.duration⟩ else none

/-- MatrixContent (lines 28-56): a frame list and the cursor. -/
structure MatrixContent where
  frames : List Frame
  current_index : Nat
deriving DecidableEq

/-- MatrixContent(): one empty frame, cursor 0. -/
def MatrixContent.init : MatrixContent :=
  ⟨[Frame.init], 0⟩

/-- Python list indexing l[i]: a negative index counts from the end once, and
an index still out of bounds raises IndexError (the none case). -/
def pyGet (l : List Frame) (i : Int) : Option Frame :=
  if 0 ≤ i then l[i.toNat]?
  else if 0 ≤ i + l.length then l[(i + l.length).toNat]? else none

/-- MatrixContent.frame (lines 39-43): the frame at the given index, or the
frame at the cursor when no index is given. -/
def MatrixContent.frame (m : MatrixContent) : Option Int → Option Frame
  | none => m.frames[m.current_index]?
  | some i => pyGet m.frames i

/-- MatrixContent.new_frame (lines 45-49): advance the cursor, append a fresh
empty frame.  The Python method returns frames[current_index] of the updated
object, which is the appended frame; the claims only consult the state, so
the state is the result here. -/
def MatrixContent.new_frame (m : MatrixContent) : MatrixContent :=
  ⟨m.frames ++ [Frame.init], m.current_index + 1⟩

/-- N successive new_frame calls starting from a fresh MatrixContent. -/
def newFrames : Nat → MatrixContent
  | 0 => MatrixContent.init
  | n + 1 => (newFrames n).new_frame

/-- Projects a field out of a flatten result: none when flatten failed or the
key is absent. -/
def objField (d : Option Dict) (k : String) : Option Json :=
  match d with
  | some fields => dlookup fields k
  | none => none

/-- Whether a flatten result carries the given key. -/
def hasKey (d : Option Dict) (k : String) : Bool :=
  (objField d k).isSome

/-- The observable mark of the palette branch: its output carries the colors
key, which the raw branch omits. -/
def paletteChosen (d : Option Dict) : Bool :=
  hasKey d "colors"

/-- A flatten result equals the given dict as a mapping: flatten succeeded
and the dicts agree on every key. -/
def flatEq (a : Option Dict) (b : Dict) : Prop :=
  match a with
  | some d => objEq d b
  | none => False

instance (a : Option Dict) (b : Dict) : Decidable (flatEq a b) := by
  unfold flatEq; cases a <;> infer_instance

/-- Accumulates one pixel into the distinct-color list, first occurrence
first.  Modelled from the spec: the multiset of distinct colors of the
bitmap, against which the palette built by the code is compared. -/
def distinctStep (acc : List RGB) (p : RGB) : List RGB :=
  if p ∈ acc then acc else acc ++ [p]

/-- Distinct colors of the pixel sequence in first-occurrence order.
Modelled from the spec: the number of distinct colors that drives the
encoding choice. -/
def specDistinctColors (pixels : List RGB) : List RGB :=
  pixels.foldl distinctStep []

/-- Count carried by the first entry of a count list that holds the given
color, 0 when the color is absent. -/
def countOf (xs : List (Nat × RGB)) (c : RGB) : Nat :=
  ((xs.find? (fun e => e.2 = c)).map (fun e => e.1)).getD 0

/-- A 2 by 2 bitmap of a single color, the spec's palette edge case. -/
def uniformBitmap : Bitmap :=
  ⟨2, 2, [(10, 20, 30), (10, 20, 30), (10, 20, 30), (10, 20, 30)]⟩

/-- A 4 by 4 bitmap of 16 distinct colors: 16 is at least 10 and at least
half of 16 pixels, so the raw branch applies. -/
def diverseBitmap : Bitmap :=
  ⟨4, 4, (List.range 16).map (fun i => (i, 0, 0))⟩

/-- Enumerates 257 distinct RGB triples. -/
def colorNo (i : Nat) : RGB :=
  (i / 256, i % 256, 0)

/-- A 5 by 103 bitmap holding 257 distinct colors over 515 pixels: more
distinct colors than PIL getcolors admits, yet fewer than half the pixel
count, so the claimed branch condition asks for the palette path. -/
def overloadedBitmap : Bitmap :=
  ⟨5, 103, (List.range 257).map colorNo ++ List.replicate 258 (colorNo 0)⟩

/-- A 257 by 1 bitmap of 257 pairwise distinct pixels: at least 10 distinct
colors and at least half the pixel count, so the claimed branch condition
asks for the raw path. -/
def saturatedBitmap : Bitmap :=
  ⟨257, 1, (List.range 257).map colorNo⟩

/-- A 300 by 1 bitmap of 300 pairwise distinct pixels, enough to push PIL
getcolors past its 256-color limit. -/
def crashBitmap : Bitmap :=
  ⟨300, 1, (List.range 300).map colorNo⟩

/-- A concrete white pixel piece. -/
def pieceA : ContentPiece :=
  Pixel.init none none

/-- A concrete pixel piece distinct from pieceA. -/
def pieceB : ContentPiece :=
  Pixel.init (some ⟨1, 0⟩) none

/-- A concrete pixel piece distinct from pieceA and pieceB. -/
def pieceC : ContentPiece :=
  Pixel.init (some ⟨2, 0⟩) none

/-- A frame already holding pieceA and then pieceB. -/
def frameAB : Frame :=
  ⟨[pieceA, pieceB], 0⟩

/-!
Lemmas about the distinct-color list and the per-color counts computed by
the getcolors model.
-/

theorem mem_foldl_distinctStep (l : List RGB) :
    ∀ (acc : List RGB) (a : RGB), a ∈ l.foldl distinctStep acc ↔ a ∈ acc ∨ a ∈ l := by
  induction l with
  | nil => intro acc a; simp
  | cons p t ih =>
    intro acc a
    rw [List.foldl_cons, ih]
    unfold distinctStep
    by_cases hp : p ∈ acc
    · rw [if_pos hp]
      simp only [List.mem_cons]
      constructor
      · rintro (h | h)
        · exact Or.inl h
        · exact Or.inr (Or.inr h)
      · rintro (h | h | h)
        · exact Or.inl h
        · exact Or.inl (h ▸ hp)
        · exact Or.inr h
    · rw [if_neg hp]
      simp only [List.mem_append, List.mem_singleton, List.mem_cons]
      tauto

theorem mem_specDistinctColors (l : List RGB) (a : RGB) :
    a ∈ specDistinctColors l ↔ a ∈ l := by
  unfold specDistinctColors
  rw [mem_foldl_distinctStep]
  simp

theorem foldl_distinctStep_subset (l : List RGB) :
    ∀ (acc : List RGB), (∀ a ∈ l, a ∈ acc) → l.foldl distinctStep acc = acc := by
  induction l with
  | nil => intro acc _; rfl
  | cons p t ih =>
    intro acc h
    rw [List.foldl_cons]
    unfold distinctStep
    rw [if_pos (h p (List.mem_cons_self p t))]
    exact ih acc (fun a ha => h a (List.mem_cons_of_mem p ha))

theorem specDistinctColors_append_subset (l1 l2 : List RGB)
    (h : ∀ a ∈ l2, a ∈ l1) :
    specDistinctColors (l1 ++ l2) = specDistinctColors l1 := by
  unfold specDistinctColors
  rw [List.foldl_append]
  exact foldl_distinctStep_subset l2 _
    (fun a ha => (mem_foldl_distinctStep l1 [] a).mpr (Or.inr (h a ha)))

theorem foldl_distinctStep_nodup (l : List RGB) :
    ∀ (acc : List RGB), (∀ a ∈ l, a ∉ acc) → l.Nodup →
      l.foldl distinctStep acc = acc ++ l := by
  induction l with
  | nil => intro acc _ _; simp
  | cons p t ih =>
    intro acc hdisj hnd
    rw [List.foldl_cons]
    have hstep : distinctStep acc p = acc ++ [p] := by
      unfold distinctStep
      exact if_neg (hdisj p (List.mem_cons_self p t))
    rw [hstep, ih (acc ++ [p]) ?_ (List.Nodup.of_cons hnd)]
    · simp
    · intro a ha
      simp only [List.mem_append, List.mem_singleton]
      rintro (h | h)
      · exact hdisj a (List.mem_cons_of_mem p ha) h
      · exact (List.nodup_cons.mp hnd).1 (h ▸ ha)

theorem specDistinctColors_nodup (l : List RGB) (h : l.Nodup) :
    specDistinctColors l = l := by
  unfold specDistinctColors
  rw [foldl_distinctStep_nodup l [] (by simp) h]
  simp

theorem colorCountsStep_map_snd (acc : List (Nat × RGB)) (p : RGB) :
    (colorCountsStep acc p).map (fun e => e.2)
      = distinctStep (acc.map (fun e => e.2)) p := by
  unfold colorCountsStep distinctStep
  by_cases hany : acc.any (fun e => decide (e.2 = p))
  · rw [if_pos hany, List.map_map]
    have hmem : p ∈ acc.map (fun e => e.2) := by
      obtain ⟨e, he, hep⟩ := List.any_eq_true.mp hany
      exact List.mem_map.mpr ⟨e, he, of_decide_eq_true hep⟩
    rw [if_pos hmem]
    apply List.map_congr_left
    intro e _
    by_cases h : e.2 = p <;> simp [h]
  · rw [if_neg hany, List.map_append]
    have hmem : p ∉ acc.map (fun e => e.2) := by
      intro hc
      obtain ⟨e, he, hep⟩ := List.mem_map.mp hc
      exact hany (List.any_eq_true.mpr ⟨e, he, decide_eq_true hep⟩)
    rw [if_neg hmem]
    rfl

theorem foldl_colorCountsStep_map_snd (l : List RGB) :
    ∀ (acc : List (Nat × RGB)),
      (l.foldl colorCountsStep acc).map (fun e => e.2)
        = l.foldl distinctStep (acc.map (fun e => e.2)) := by
  induction l with
  | nil => intro acc; rfl
  | cons p t ih =>
    intro acc
    rw [List.foldl_cons, List.foldl_cons, ih, colorCountsStep_map_snd]

theorem colorCounts_map_snd (l : List RGB) :
    (colorCounts l).map (fun e => e.2) = specDistinctColors l := by
  unfold colorCounts specDistinctColors
  rw [foldl_colorCountsStep_map_snd]
  rfl

theorem colorCounts_length (l : List RGB) :
    (colorCounts l).length = (specDistinctColors l).length := by
  rw [← colorCounts_map_snd, List.length_map]

theorem countOf_nil (c : RGB) : countOf [] c = 0 := rfl

theorem countOf_colorCountsStep (acc : List (Nat × RGB)) (p c : RGB) :
    countOf (colorCountsStep acc p) c = countOf acc c + if p = c then 1 else 0 := by
  unfold colorCountsStep countOf
  by_cases hany : acc.any (fun e => decide (e.2 = p)) = true
  · rw [if_pos hany, List.find?_map]
    have hsnd : ∀ e : Nat × RGB, (if e.2 = p then (e.1 + 1, e.2) else e).2 = e.2 := by
      intro e; split <;> rfl
    have hpred : ((fun e : Nat × RGB => decide (e.2 = c))
        ∘ (fun e : Nat × RGB => if e.2 = p then (e.1 + 1, e.2) else e))
        = fun e : Nat × RGB => decide (e.2 = c) := by
      funext e
      simp only [Function.comp]
      rw [hsnd]
    rw [hpred]
    cases hf : acc.find? (fun e => decide (e.2 = c)) with
    | none =>
      by_cases hpc : p = c
      · subst hpc
        obtain ⟨e, he, hep⟩ := List.any_eq_true.mp hany
        exact absurd hep (List.find?_eq_none.mp hf e he)
      · simp [hpc]
    | some e0 =>
      have he0 : e0.2 = c := by
        have h0 := List.find?_some hf
        exact of_decide_eq_true h0
      by_cases hpc : p = c
      · subst hpc
        simp [he0]
      · have : ¬ e0.2 = p := fun h => hpc (h.symm.trans he0)
        simp [this, hpc]
  · rw [if_neg hany, List.find?_append]
    by_cases hpc : p = c
    · subst hpc
      have hnone : acc.find? (fun e => decide (e.2 = p)) = none := by
        rw [List.find?_eq_none]
        intro x hx hpx
        exact hany (List.any_eq_true.mpr ⟨x, hx, hpx⟩)
      simp [hnone]
    · have hsingle : List.find? (fun e => decide (e.2 = c)) [(1, p)] = none := by
        rw [List.find?_cons_of_neg _ (by simpa using hpc)]
        rfl
      rw [hsingle, Option.or_none]
      simp [hpc]

theorem countOf_foldl (l : List RGB) :
    ∀ (acc : List (Nat × RGB)) (c : RGB),
      countOf (l.foldl colorCountsStep acc) c = countOf acc c + l.count c := by
  induction l with
  | nil => intro acc c; simp
  | cons p t ih =>
    intro acc c
    rw [List.foldl_cons, ih, countOf_colorCountsStep]
    by_cases h : p = c
    · simp [List.count_cons, h]
      omega
    · simp [List.count_cons, h]

theorem colorCountsStep_pairwise (acc : List (Nat × RGB)) (p : RGB)
    (h : acc.Pairwise (fun a b => a.2 ≠ b.2)) :
    (colorCountsStep acc p).Pairwise (fun a b => a.2 ≠ b.2) := by
  unfold colorCountsStep
  by_cases hany : acc.any (fun e => decide (e.2 = p)) = true
  · rw [if_pos hany]
    apply h.map
    intro a b hab
    have hs : ∀ e : Nat × RGB, (if e.2 = p then (e.1 + 1, e.2) else e).2 = e.2 := by
      intro e; split <;> rfl
    rw [hs, hs]
    exact hab
  · rw [if_neg hany, List.pairwise_append]
    refine ⟨h, List.pairwise_singleton _ _, ?_⟩
    intro a ha b hb
    have hb1 : b = (1, p) := by simpa using hb
    subst hb1
    intro hc
    exact hany (List.any_eq_true.mpr ⟨a, ha, decide_eq_true hc⟩)

theorem foldl_colorCountsStep_pairwise (l : List RGB) :
    ∀ acc, acc.Pairwise (fun a b => a.2 ≠ b.2) →
      (l.foldl colorCountsStep acc).Pairwise (fun a b => a.2 ≠ b.2) := by
  induction l with
  | nil => intro acc h; exact h
  | cons p t ih =>
    intro acc h
    rw [List.foldl_cons]
    exact ih _ (colorCountsStep_pairwise acc p h)

theorem colorCounts_pairwise (l : List RGB) :
    (colorCounts l).Pairwise (fun a b => a.2 ≠ b.2) :=
  foldl_colorCountsStep_pairwise l [] List.Pairwise.nil

theorem find?_pairwise_mem (xs : List (Nat × RGB))
    (hp : xs.Pairwise (fun a b => a.2 ≠ b.2)) (e : Nat × RGB) (he : e ∈ xs) :
    xs.find? (fun a => decide (a.2 = e.2)) = some e := by
  induction xs with
  | nil => cases he
  | cons x t ih =>
    rcases List.mem_cons.mp he with rfl | het
    · exact List.find?_cons_of_pos t (by simp)
    · have hx : x.2 ≠ e.2 := (List.pairwise_cons.mp hp).1 e het
      rw [List.find?_cons_of_neg t (by simpa using hx)]
      exact ih (List.pairwise_cons.mp hp).2 het

theorem colorCounts_count (l : List RGB) (e : Nat × RGB) (he : e ∈ colorCounts l) :
    e.1 = l.count e.2 := by
  have h1 : countOf (colorCounts l) e.2 = l.count e.2 := by
    unfold colorCounts
    rw [countOf_foldl, countOf_nil, Nat.zero_add]
  have h2 : countOf (colorCounts l) e.2 = e.1 := by
    unfold countOf
    rw [find?_pairwise_mem _ (colorCounts_pairwise l) e he]
    rfl
  rw [← h2, h1]

/-!
Lemmas about the stable descending-by-count insertion sort.
-/

theorem insertDesc_perm (x : Nat × RGB) (l : List (Nat × RGB)) :
    (insertDesc x l).Perm (x :: l) := by
  induction l with
  | nil => exact List.Perm.refl _
  | cons y ys ih =>
    unfold insertDesc
    by_cases h : y.1 ≤ x.1
    · rw [if_pos h]
    · rw [if_neg h]
      exact (ih.cons y).trans (List.Perm.swap x y ys)

theorem sortCountDesc_perm (l : List (Nat × RGB)) :
    (sortCountDesc l).Perm l := by
  induction l with
  | nil => exact List.Perm.refl _
  | cons x t ih =>
    unfold sortCountDesc
    rw [List.foldr_cons]
    exact (insertDesc_perm x _).trans (ih.cons x)

theorem insertDesc_pairwise (x : Nat × RGB) (l : List (Nat × RGB))
    (h : l.Pairwise (fun a b => b.1 ≤ a.1)) :
    (insertDesc x l).Pairwise (fun a b => b.1 ≤ a.1) := by
  induction l with
  | nil => exact List.pairwise_singleton _ _
  | cons y ys ih =>
    unfold insertDesc
    obtain ⟨hy, hys⟩ := List.pairwise_cons.mp h
    by_cases hle : y.1 ≤ x.1
    · rw [if_pos hle]
      rw [List.pairwise_cons]
      refine ⟨?_, h⟩
      intro b hb
      rcases List.mem_cons.mp hb with rfl | hbys
      · exact hle
      · exact (hy b hbys).trans hle
    · rw [if_neg hle]
      rw [List.pairwise_cons]
      refine ⟨?_, ih hys⟩
      intro b hb
      have hb2 : b ∈ x :: ys := (insertDesc_perm x ys).mem_iff.mp hb
      rcases List.mem_cons.mp hb2 with rfl | hbys
      · omega
      · exact hy b hbys

theorem sortCountDesc_pairwise (l : List (Nat × RGB)) :
    (sortCountDesc l).Pairwise (fun a b => b.1 ≤ a.1) := by
  induction l with
  | nil => exact List.Pairwise.nil
  | cons x t ih =>
    unfold sortCountDesc
    rw [List.foldr_cons]
    exact insertDesc_pairwise x _ ih

theorem filter_insertDesc (x : Nat × RGB) (m : List (Nat × RGB)) (k : Nat) :
    (insertDesc x m).filter (fun e => decide (e.1 = k))
      = if x.1 = k then x :: m.filter (fun e => decide (e.1 = k))
        else m.filter (fun e => decide (e.1 = k)) := by
  induction m with
  | nil =>
    unfold insertDesc
    by_cases h : x.1 = k <;> simp [List.filter, h]
  | cons y ys ih =>
    unfold insertDesc
    by_cases hle : y.1 ≤ x.1
    · rw [if_pos hle]
      by_cases hxk : x.1 = k <;> simp [List.filter_cons, hxk]
    · rw [if_neg hle, List.filter_cons, ih]
      by_cases hxk : x.1 = k
      · have hyk : ¬ y.1 = k := by omega
        simp [hxk, hyk, List.filter_cons]
      · by_cases hyk : y.1 = k <;> simp [hxk, hyk, List.filter_cons]

theorem filter_sortCountDesc (l : List (Nat × RGB)) (k : Nat) :
    (sortCountDesc l).filter (fun e => decide (e.1 = k))
      = l.filter (fun e => decide (e.1 = k)) := by
  induction l with
  | nil => rfl
  | cons x t ih =>
    unfold sortCountDesc at ih ⊢
    rw [List.foldr_cons, filter_insertDesc, List.filter_cons]
    by_cases hxk : x.1 = k <;> simp [hxk, ih]

/-!
Lemmas connecting the Image flatten code path to the getcolors outcome.
-/

theorem image_init_flatten (b : Bitmap) (locOpt : Option Location) :
    (Image.init b locOpt).flatten
      = Image.flattenDict b ((locOpt.map ColorOrLoc.loc).getD (ColorOrLoc.loc ⟨0, 0⟩)) :=
  rfl

theorem getcolors_of_le (b : Bitmap) (h : (specDistinctColors b.pixels).length ≤ 256) :
    getcolors b = some (colorCounts b.pixels) := by
  unfold getcolors
  rw [if_pos]
  rw [colorCounts_length]
  exact h

theorem getcolors_of_gt (b : Bitmap) (h : 256 < (specDistinctColors b.pixels).length) :
    getcolors b = none := by
  unfold getcolors
  rw [if_neg]
  rw [colorCounts_length]
  omega

theorem flattenDict_getcolors_none (img : Bitmap) (loc : ColorOrLoc)
    (h : getcolors img = none) :
    Image.flattenDict img loc = none := by
  unfold Image.flattenDict
  rw [h]

theorem flattenDict_getcolors_some (img : Bitmap) (loc : ColorOrLoc)
    (cs : List (Nat × RGB)) (h : getcolors img = some cs) :
    Image.flattenDict img loc
      = if cs.length < 10 ∨ 2 * cs.length < img.width * img.height then
          some [("type", Json.str "image"),
                ("width", Json.int img.width),
                ("height", Json.int img.height),
                ("colors", Json.arr ((palette cs).map (fun c => Json.str (rgbColor c).hex))),
                ("pixels", Json.arr (img.pixels.map (fun p => Json.int ((palette cs).indexOf p)))),
                ("location", Json.obj loc.flatten)]
        else
          some [("type", Json.str "image"),
                ("width", Json.int img.width),
                ("height", Json.int img.height),
                ("pixels", Json.arr (img.pixels.map (fun p => Json.str (rgbColor p).hex)))] := by
  unfold Image.flattenDict
  rw [h]

theorem dlookup_img6 (t w h c px lo : Json) (k : String)
    (hk : k = "colors" ∨ k = "pixels" ∨ k = "location") :
    dlookup [("type", t), ("width", w), ("height", h), ("colors", c), ("pixels", px),
      ("location", lo)] k
      = if k = "colors" then some c else if k = "pixels" then some px else some lo := by
  rcases hk with rfl | rfl | rfl <;> rfl

theorem dlookup_img4_colors (t w h px : Json) :
    dlookup [("type", t), ("width", w), ("height", h), ("pixels", px)] "colors" = none :=
  rfl

theorem dlookup_img4_pixels (t w h px : Json) :
    dlookup [("type", t), ("width", w), ("height", h), ("pixels", px)] "pixels" = some px :=
  rfl

theorem dlookup_img4_location (t w h px : Json) :
    dlookup [("type", t), ("width", w), ("height", h), ("pixels", px)] "location" = none :=
  rfl

theorem palette_perm (l : List RGB) :
    (palette (colorCounts l)).Perm (specDistinctColors l) := by
  unfold palette
  have h := (sortCountDesc_perm (colorCounts l)).map (fun e : Nat × RGB => e.2)
  rw [colorCounts_map_snd] at h
  exact h

theorem palette_sorted (l : List RGB) :
    (palette (colorCounts l)).Pairwise (fun c d => l.count d ≤ l.count c) := by
  unfold palette
  rw [List.pairwise_map]
  apply (sortCountDesc_pairwise (colorCounts l)).imp_of_mem
  intro a b ha hb hab
  have ha2 : a ∈ colorCounts l := (sortCountDesc_perm _).subset ha
  have hb2 : b ∈ colorCounts l := (sortCountDesc_perm _).subset hb
  rw [← colorCounts_count l a ha2, ← colorCounts_count l b hb2]
  exact hab

theorem palette_stable (l : List RGB) (k : Nat) :
    (palette (colorCounts l)).filter (fun c => decide (l.count c = k))
      = (specDistinctColors l).filter (fun c => decide (l.count c = k)) := by
  unfold palette
  rw [← colorCounts_map_snd, List.filter_map, List.filter_map]
  have hmid : ∀ m : List (Nat × RGB), (∀ e ∈ m, e.1 = l.count e.2) →
      m.filter ((fun c => decide (l.count c = k)) ∘ (fun e : Nat × RGB => e.2))
        = m.filter (fun e => decide (e.1 = k)) := by
    intro m hm
    apply List.filter_congr
    intro e he
    simp only [Function.comp]
    rw [hm e he]
  have ha := hmid (sortCountDesc (colorCounts l))
    (fun e he => colorCounts_count l e ((sortCountDesc_perm _).subset he))
  have hb := hmid (colorCounts l) (fun e he => colorCounts_count l e he)
  rw [ha, hb, filter_sortCountDesc]

theorem palette_single (l : List RGB) (c0 : RGB) (h : specDistinctColors l = [c0]) :
    palette (colorCounts l) = [c0] := by
  have hp := palette_perm l
  rw [h] at hp
  exact List.perm_singleton.mp hp

theorem palette_indexOf_single (l : List RGB) (c0 : RGB)
    (h : specDistinctColors l = [c0]) :
    ∀ p ∈ l, (palette (colorCounts l)).indexOf p = 0 := by
  intro p hp
  have hmem : p ∈ specDistinctColors l := (mem_specDistinctColors l p).mpr hp
  rw [h] at hmem
  have hpc : p = c0 := by simpa using hmem
  rw [palette_single l c0 h, hpc, List.indexOf, List.findIdx_cons, beq_self_eq_true]
  rfl

/-!
Claim theorems.
-/

/-- C1 (amended to bitmaps with at most 256 distinct colors, the PIL getcolors
limit beyond which flatten raises): flatten chooses the palette encoding iff
the number of distinct colors is below 10 or below half of width times
height; on that path the emitted colors list is a palette holding the
distinct colors sorted by descending occurrence count (stable among equal
counts) and the pixels field is the palette index of each pixel in row-major
order; a single-color bitmap takes the palette path with all indices 0. -/
theorem image_palette_encoding (b : Bitmap) (locOpt : Option Location)
    (hwh : b.pixels.length = b.width * b.height)
    (hc : (specDistinctColors b.pixels).length ≤ 256) :
    (paletteChosen ((Image.init b locOpt).flatten) = true
      ↔ (specDistinctColors b.pixels).length < 10
        ∨ 2 * (specDistinctColors b.pixels).length < b.width * b.height)
    ∧ ((specDistinctColors b.pixels).length < 10
        ∨ 2 * (specDistinctColors b.pixels).length < b.width * b.height →
       ∃ pal : List RGB,
         pal.Perm (specDistinctColors b.pixels)
         ∧ pal.Pairwise (fun c d => b.pixels.count d ≤ b.pixels.count c)
         ∧ (∀ k : Nat, pal.filter (fun c => decide (b.pixels.count c = k))
              = (specDistinctColors b.pixels).filter (fun c => decide (b.pixels.count c = k)))
         ∧ objField ((Image.init b locOpt).flatten) "colors"
             = some (Json.arr (pal.map (fun c => Json.str (rgbColor c).hex)))
         ∧ objField ((Image.init b locOpt).flatten) "pixels"
             = some (Json.arr (b.pixels.map (fun p => Json.int (pal.indexOf p)))))
    ∧ ((specDistinctColors b.pixels).length = 1 →
        paletteChosen ((Image.init b locOpt).flatten) = true
        ∧ objField ((Image.init b locOpt).flatten) "pixels"
            = some (Json.arr (List.replicate (b.width * b.height) (Json.int 0)))) := by
  have hgc : getcolors b = some (colorCounts b.pixels) := getcolors_of_le b hc
  have hfd := flattenDict_getcolors_some b
    ((locOpt.map ColorOrLoc.loc).getD (ColorOrLoc.loc ⟨0, 0⟩)) _ hgc
  rw [← image_init_flatten b locOpt] at hfd
  have hlen := colorCounts_length b.pixels
  by_cases hcond : (specDistinctColors b.pixels).length < 10
      ∨ 2 * (specDistinctColors b.pixels).length < b.width * b.height
  · have hcond2 : (colorCounts b.pixels).length < 10
        ∨ 2 * (colorCounts b.pixels).length < b.width * b.height := by
      rw [hlen]
      exact hcond
    rw [if_pos hcond2] at hfd
    have hcol : objField ((Image.init b locOpt).flatten) "colors"
        = some (Json.arr ((palette (colorCounts b.pixels)).map
            (fun c => Json.str (rgbColor c).hex))) := by
      rw [hfd]
      rfl
    have hpix : objField ((Image.init b locOpt).flatten) "pixels"
        = some (Json.arr (b.pixels.map
            (fun p => Json.int ((palette (colorCounts b.pixels)).indexOf p)))) := by
      rw [hfd]
      rfl
    have hpc : paletteChosen ((Image.init b locOpt).flatten) = true := by
      unfold paletteChosen hasKey
      rw [hcol]
      rfl
    refine ⟨⟨fun _ => hcond, fun _ => hpc⟩,
      fun _ => ⟨palette (colorCounts b.pixels), palette_perm b.pixels,
        palette_sorted b.pixels, fun k => palette_stable b.pixels k, hcol, hpix⟩, ?_⟩
    intro h1
    refine ⟨hpc, ?_⟩
    obtain ⟨c0, hD⟩ := List.length_eq_one.mp h1
    have hrepl : b.pixels.map
        (fun p => Json.int ((palette (colorCounts b.pixels)).indexOf p))
        = List.replicate (b.width * b.height) (Json.int 0) := by
      have hmc : ∀ p ∈ b.pixels,
          Json.int ((palette (colorCounts b.pixels)).indexOf p) = Json.int 0 := by
        intro p hp
        rw [palette_indexOf_single b.pixels c0 hD p hp]
        rfl
      rw [List.map_congr_left hmc, List.map_const', hwh]
    rw [hpix, hrepl]
  · have hcond2 : ¬((colorCounts b.pixels).length < 10
        ∨ 2 * (colorCounts b.pixels).length < b.width * b.height) := by
      rw [hlen]
      exact hcond
    rw [if_neg hcond2] at hfd
    have hpc : paletteChosen ((Image.init b locOpt).flatten) = false := by
      unfold paletteChosen hasKey
      rw [hfd]
      rfl
    refine ⟨⟨fun h => ?_, fun h => absurd h hcond⟩,
      fun h => absurd h hcond, fun h1 => absurd (Or.inl (by omega)) hcond⟩
    rw [hpc] at h
    exact absurd h (by simp)

theorem colorNo_injective : Function.Injective colorNo := by
  intro i j h
  unfold colorNo at h
  injection h with h1 h2
  injection h2 with h2 h3
  omega

theorem nodup_range_colorNo (n : Nat) : ((List.range n).map colorNo).Nodup :=
  (List.nodup_range n).map colorNo_injective

theorem specDistinct_overloaded :
    specDistinctColors overloadedBitmap.pixels = (List.range 257).map colorNo := by
  show specDistinctColors ((List.range 257).map colorNo ++ List.replicate 258 (colorNo 0))
      = (List.range 257).map colorNo
  rw [specDistinctColors_append_subset]
  · exact specDistinctColors_nodup _ (nodup_range_colorNo 257)
  · intro a ha
    rw [List.eq_of_mem_replicate ha]
    exact List.mem_map.mpr ⟨0, List.mem_range.mpr (by omega), rfl⟩

/-- C1, witness: the single-color 2 by 2 bitmap satisfies the hypotheses, so
the palette branch statement holds for it. -/
theorem image_palette_encoding_witness :
    (paletteChosen ((Image.init uniformBitmap none).flatten) = true
      ↔ (specDistinctColors uniformBitmap.pixels).length < 10
        ∨ 2 * (specDistinctColors uniformBitmap.pixels).length
            < uniformBitmap.width * uniformBitmap.height)
    ∧ ((specDistinctColors uniformBitmap.pixels).length < 10
        ∨ 2 * (specDistinctColors uniformBitmap.pixels).length
            < uniformBitmap.width * uniformBitmap.height →
       ∃ pal : List RGB,
         pal.Perm (specDistinctColors uniformBitmap.pixels)
         ∧ pal.Pairwise
             (fun c d => uniformBitmap.pixels.count d ≤ uniformBitmap.pixels.count c)
         ∧ (∀ k : Nat, pal.filter (fun c => decide (uniformBitmap.pixels.count c = k))
              = (specDistinctColors uniformBitmap.pixels).filter
                  (fun c => decide (uniformBitmap.pixels.count c = k)))
         ∧ objField ((Image.init uniformBitmap none).flatten) "colors"
             = some (Json.arr (pal.map (fun c => Json.str (rgbColor c).hex)))
         ∧ objField ((Image.init uniformBitmap none).flatten) "pixels"
             = some (Json.arr (uniformBitmap.pixels.map
                 (fun p => Json.int (pal.indexOf p)))))
    ∧ ((specDistinctColors uniformBitmap.pixels).length = 1 →
        paletteChosen ((Image.init uniformBitmap none).flatten) = true
        ∧ objField ((Image.init uniformBitmap none).flatten) "pixels"
            = some (Json.arr (List.replicate (uniformBitmap.width * uniformBitmap.height)
                (Json.int 0)))) :=
  image_palette_encoding uniformBitmap none (by decide) (by decide)

/-- C1, counterexample to the unamended claim: a valid 5 by 103 bitmap with
257 distinct colors satisfies the claimed palette condition (514 < 515), yet
flatten does not choose the palette encoding: PIL getcolors exceeds its
256-color limit and flatten crashes instead. -/
theorem image_palette_encoding_cex :
    2 * (specDistinctColors overloadedBitmap.pixels).length
        < overloadedBitmap.width * overloadedBitmap.height
    ∧ overloadedBitmap.pixels.length = overloadedBitmap.width * overloadedBitmap.height
    ∧ paletteChosen ((Image.init overloadedBitmap none).flatten) = false := by
  have hlen : (specDistinctColors overloadedBitmap.pixels).length = 257 := by
    rw [specDistinct_overloaded, List.length_map, List.length_range]
  refine ⟨by rw [hlen]; decide, ?_, ?_⟩
  · show ((List.range 257).map colorNo ++ List.replicate 258 (colorNo 0)).length = 5 * 103
    rw [List.length_append, List.length_map, List.length_range, List.length_replicate]
  · rw [image_init_flatten,
      flattenDict_getcolors_none _ _ (getcolors_of_gt _ (by rw [hlen]; decide))]
    rfl

/-- C2 (amended to bitmaps with at most 256 distinct colors, the PIL
getcolors limit beyond which flatten raises): when the distinct-color count
is at least 10 and at least half of width times height, flatten takes the raw
path, whose output has exactly the keys type, width, height and pixels, the
pixels being one hex string per pixel in row-major order, with no location
key; the palette branch by contrast does include location. -/
theorem image_raw_encoding (b : Bitmap) (locOpt : Option Location)
    (hwh : b.pixels.length = b.width * b.height)
    (hc : (specDistinctColors b.pixels).length ≤ 256)
    (h10 : 10 ≤ (specDistinctColors b.pixels).length)
    (hhalf : b.width * b.height ≤ 2 * (specDistinctColors b.pixels).length) :
    (Image.init b locOpt).flatten
      = some [("type", Json.str "image"), ("width", Json.int b.width),
          ("height", Json.int b.height),
          ("pixels", Json.arr (b.pixels.map (fun p => Json.str (rgbColor p).hex)))]
    ∧ (b.pixels.map (fun p => Json.str (rgbColor p).hex)).length = b.width * b.height
    ∧ hasKey ((Image.init b locOpt).flatten) "location" = false
    ∧ (∀ (b2 : Bitmap) (loc2 : Option Location),
        (specDistinctColors b2.pixels).length ≤ 256 →
        ((specDistinctColors b2.pixels).length < 10
          ∨ 2 * (specDistinctColors b2.pixels).length < b2.width * b2.height) →
        hasKey ((Image.init b2 loc2).flatten) "location" = true) := by
  have hgc := getcolors_of_le b hc
  have hfd := flattenDict_getcolors_some b
    ((locOpt.map ColorOrLoc.loc).getD (ColorOrLoc.loc ⟨0, 0⟩)) _ hgc
  rw [← image_init_flatten b locOpt] at hfd
  have hlen := colorCounts_length b.pixels
  have hcond : ¬((colorCounts b.pixels).length < 10
      ∨ 2 * (colorCounts b.pixels).length < b.width * b.height) := by
    rw [hlen]
    omega
  rw [if_neg hcond] at hfd
  refine ⟨hfd, by rw [List.length_map, hwh], ?_, ?_⟩
  · unfold hasKey objField
    rw [hfd]
    rfl
  · intro b2 loc2 hc2 hcond2
    have hgc2 := getcolors_of_le b2 hc2
    have hfd2 := flattenDict_getcolors_some b2
      ((loc2.map ColorOrLoc.loc).getD (ColorOrLoc.loc ⟨0, 0⟩)) _ hgc2
    rw [← image_init_flatten b2 loc2] at hfd2
    have hcond2b : (colorCounts b2.pixels).length < 10
        ∨ 2 * (colorCounts b2.pixels).length < b2.width * b2.height := by
      rw [colorCounts_length]
      exact hcond2
    rw [if_pos hcond2b] at hfd2
    unfold hasKey objField
    rw [hfd2]
    rfl

/-- C2, witness: the 16-color 4 by 4 bitmap satisfies the hypotheses, so the
raw branch statement holds for it. -/
theorem image_raw_encoding_witness :
    (Image.init diverseBitmap none).flatten
      = some [("type", Json.str "image"), ("width", Json.int diverseBitmap.width),
          ("height", Json.int diverseBitmap.height),
          ("pixels", Json.arr (diverseBitmap.pixels.map
            (fun p => Json.str (rgbColor p).hex)))]
    ∧ (diverseBitmap.pixels.map (fun p => Json.str (rgbColor p).hex)).length
        = diverseBitmap.width * diverseBitmap.height
    ∧ hasKey ((Image.init diverseBitmap none).flatten) "location" = false
    ∧ (∀ (b2 : Bitmap) (loc2 : Option Location),
        (specDistinctColors b2.pixels).length ≤ 256 →
        ((specDistinctColors b2.pixels).length < 10
          ∨ 2 * (specDistinctColors b2.pixels).length < b2.width * b2.height) →
        hasKey ((Image.init b2 loc2).flatten) "location" = true) :=
  image_raw_encoding diverseBitmap none (by decide) (by decide) (by decide) (by decide)

/-- C2, counterexample to the unamended claim: a valid 257 by 1 bitmap of 257
pairwise distinct pixels has at least 10 distinct colors and at least half
the pixel count, yet flatten does not produce the raw encoding: PIL getcolors
exceeds its 256-color limit and flatten crashes instead. -/
theorem image_raw_encoding_cex :
    10 ≤ (specDistinctColors saturatedBitmap.pixels).length
    ∧ saturatedBitmap.width * saturatedBitmap.height
        ≤ 2 * (specDistinctColors saturatedBitmap.pixels).length
    ∧ saturatedBitmap.pixels.length = saturatedBitmap.width * saturatedBitmap.height
    ∧ (Image.init saturatedBitmap none).flatten = none := by
  have hlen : (specDistinctColors saturatedBitmap.pixels).length = 257 := by
    show (specDistinctColors ((List.range 257).map colorNo)).length = 257
    rw [specDistinctColors_nodup _ (nodup_range_colorNo 257), List.length_map,
      List.length_range]
  refine ⟨by rw [hlen]; decide, by rw [hlen]; decide, ?_, ?_⟩
  · show ((List.range 257).map colorNo).length = 257 * 1
    rw [List.length_map, List.length_range]
  · rw [image_init_flatten]
    exact flattenDict_getcolors_none _ _ (getcolors_of_gt _ (by rw [hlen]; decide))

/-- C9: flatten is not total on valid Images.  A valid 300 by 1 bitmap of 300
pairwise distinct pixels makes PIL getcolors return None (it admits at most
256 distinct colors), so Image.flatten raises a TypeError on len(None)
instead of returning a structural value. -/
theorem image_flatten_crash :
    crashBitmap.pixels.length = crashBitmap.width * crashBitmap.height
    ∧ (Image.init crashBitmap none).flatten = none := by
  have hlen : (specDistinctColors crashBitmap.pixels).length = 300 := by
    show (specDistinctColors ((List.range 300).map colorNo)).length = 300
    rw [specDistinctColors_nodup _ (nodup_range_colorNo 300), List.length_map,
      List.length_range]
  refine ⟨?_, ?_⟩
  · show ((List.range 300).map colorNo).length = 300 * 1
    rw [List.length_map, List.length_range]
  · rw [image_init_flatten]
    exact flattenDict_getcolors_none _ _ (getcolors_of_gt _ (by rw [hlen]; decide))

/-- C3, failing evaluation: Rectangle hands its arguments to the base class in
swapped positions (line 252), so a Rectangle built with a location but a
defaulted color flattens with no color key at all and with the origin in x
and y instead of the given location; the claimed merge of the flattened
Color and Location does not happen. -/
theorem rectangle_swapped_base_args :
    objField ((Rectangle.init 1 1 true (some ⟨2, 3⟩) none).flatten) "color" = none
    ∧ objField ((Rectangle.init 1 1 true (some ⟨2, 3⟩) none).flatten) "x"
        = some (Json.int 0)
    ∧ objField ((Rectangle.init 1 1 true (some ⟨2, 3⟩) none).flatten) "y"
        = some (Json.int 0) := by
  decide

/-- C4: the Rectangle of the spec example flattens, as a mapping, to exactly
the claimed dict; the swapped base arguments happen to only permute the key
order when both location and color are supplied, and mapping equality
ignores order. -/
theorem rectangle_example_flatten :
    flatEq ((Rectangle.init 5 3 true (some ⟨2, 2⟩) (some ⟨0, 255, 0⟩)).flatten)
      [("type", Json.str "rect"), ("width", Json.int 5), ("height", Json.int 3),
       ("fill", Json.bool true), ("color", Json.str "#00ff00"),
       ("x", Json.int 2), ("y", Json.int 2)] := by
  decide

/-- C5: Triangle.flatten emits p1, p2, p3 each as a flattened Location and
the color as a flattened Color nested under the color key, with no top-level
merge, and the spec example produces exactly the claimed structure. -/
theorem triangle_flatten_shape :
    (∀ (p1 p2 p3 : Location) (fill : Bool) (co : Option Color),
      (Triangle.init p1 p2 p3 fill co).flatten
        = some [("type", Json.str "triangle"), ("p1", Json.obj p1.flatten),
            ("p2", Json.obj p2.flatten), ("p3", Json.obj p3.flatten),
            ("color", Json.obj (co.getD ⟨255, 255, 255⟩).flatten)])
    ∧ flatEq ((Triangle.init ⟨0, 0⟩ ⟨1, 0⟩ ⟨0, 1⟩ true (some ⟨255, 0, 0⟩)).flatten)
        [("type", Json.str "triangle"),
         ("p1", Json.obj [("x", Json.int 0), ("y", Json.int 0)]),
         ("p2", Json.obj [("x", Json.int 1), ("y", Json.int 0)]),
         ("p3", Json.obj [("x", Json.int 0), ("y", Json.int 1)]),
         ("color", Json.obj [("color", Json.str "#ff0000")])] := by
  constructor
  · intro p1 p2 p3 fill co
    cases co <;> rfl
  · decide

/-- C6: a fresh MatrixContent holds exactly one empty frame, and after N
new_frame calls it holds N + 1 frames with the cursor on the last one, so
frame() with no index returns the most recently created frame. -/
theorem matrix_new_frame_count (n : Nat) :
    MatrixContent.init.frames = [Frame.init]
    ∧ Frame.init.elements = []
    ∧ (newFrames n).frames.length = n + 1
    ∧ (newFrames n).current_index = n
    ∧ (newFrames n).frame none = (newFrames n).frames.getLast? := by
  refine ⟨rfl, rfl, ?_⟩
  induction n with
  | zero => exact ⟨rfl, rfl, rfl⟩
  | succ m ih =>
    obtain ⟨hlen, hidx, _⟩ := ih
    refine ⟨?_, ?_, ?_⟩
    · show ((newFrames m).frames ++ [Frame.init]).length = m + 1 + 1
      rw [List.length_append, hlen]
      rfl
    · show (newFrames m).current_index + 1 = m + 1
      rw [hidx]
    · show ((newFrames m).frames ++ [Frame.init])[(newFrames m).current_index + 1]?
        = ((newFrames m).frames ++ [Frame.init]).getLast?
      rw [List.getLast?_concat, hidx, ← hlen, List.getElem?_concat_length]

/-- C7, counterexample: on a frame already holding the element, add appends a
second copy at the end but remove drops the first occurrence, so the
sequence ends reordered rather than restored. -/
theorem frame_add_remove_cex :
    (frameAB.add pieceA).remove pieceA ≠ some frameAB := by
  decide

/-- C7 (amended to elements not already present in the frame): Frame.add of a
fresh element followed by Frame.remove of that element restores the element
sequence exactly. -/
theorem frame_add_remove (f : Frame) (e : ContentPiece) (h : e ∉ f.elements) :
    (f.add e).remove e = some f := by
  unfold Frame.add Frame.remove
  rw [if_pos (List.mem_append_right f.elements (List.mem_singleton_self e))]
  rw [List.erase_append_right _ h, List.erase_cons_head, List.append_nil]

/-- C7, witness: adding then removing a pixel on the empty frame restores
it. -/
theorem frame_add_remove_witness :
    pieceA ∉ Frame.init.elements
    ∧ (Frame.init.add pieceA).remove pieceA = some Frame.init :=
  ⟨by decide, frame_add_remove Frame.init pieceA (by decide)⟩

/-- C8, counterexample: the claim demands an Index/Range failure for every
negative index, but Python indexing counts negative indices from the end:
frame(-1) on a fresh MatrixContent returns its single frame. -/
theorem matrix_frame_negative_index_cex :
    MatrixContent.init.frame (some (-1)) = some Frame.init := by
  decide

/-- C8 (amended: a negative index within range wraps around Python-style, so
only an index at or beyond the frame count, or below its negation, fails):
frame(i) returns the frame stored at i for in-range i, the frame at the
cursor when no index is given, and fails for every out-of-range index. -/
theorem matrix_frame_lookup (m : MatrixContent) (i : Int)
    (hcur : m.current_index < m.frames.length) :
    (m.frame none = m.frames[m.current_index]? ∧ (m.frame none).isSome = true)
    ∧ (0 ≤ i → i < m.frames.length → m.frame (some i) = m.frames[i.toNat]?
        ∧ (m.frame (some i)).isSome = true)
    ∧ (-(m.frames.length : Int) ≤ i → i < 0 →
        m.frame (some i) = m.frames[(i + m.frames.length).toNat]?
        ∧ (m.frame (some i)).isSome = true)
    ∧ ((m.frames.length : Int) ≤ i ∨ i < -(m.frames.length : Int) →
        m.frame (some i) = none) := by
  refine ⟨⟨rfl, ?_⟩, ?_, ?_, ?_⟩
  · show (m.frames[m.current_index]?).isSome = true
    rw [List.getElem?_eq_getElem hcur]
    rfl
  · intro h0 hlt
    have hT : i.toNat < m.frames.length := by omega
    constructor
    · show pyGet m.frames i = m.frames[i.toNat]?
      unfold pyGet
      rw [if_pos h0]
    · show (pyGet m.frames i).isSome = true
      unfold pyGet
      rw [if_pos h0, List.getElem?_eq_getElem hT]
      rfl
  · intro hge hlt
    have h0 : ¬ 0 ≤ i := by omega
    have h1 : 0 ≤ i + m.frames.length := by omega
    have hT : (i + m.frames.length).toNat < m.frames.length := by omega
    constructor
    · show pyGet m.frames i = m.frames[(i + m.frames.length).toNat]?
      unfold pyGet
      rw [if_neg h0, if_pos h1]
    · show (pyGet m.frames i).isSome = true
      unfold pyGet
      rw [if_neg h0, if_pos h1, List.getElem?_eq_getElem hT]
      rfl
  · intro hout
    show pyGet m.frames i = none
    unfold pyGet
    rcases hout with hbig | hsmall
    · rw [if_pos (by omega)]
      exact List.getElem?_eq_none (by omega)
    · rw [if_neg (by omega), if_neg (by omega)]

/-- C8, witness: a fresh MatrixContent with index 0 instantiates the lookup
description. -/
theorem matrix_frame_lookup_witness :
    (MatrixContent.init.frame none
        = MatrixContent.init.frames[MatrixContent.init.current_index]?
      ∧ (MatrixContent.init.frame none).isSome = true)
    ∧ (0 ≤ (0 : Int) → (0 : Int) < MatrixContent.init.frames.length →
        MatrixContent.init.frame (some 0)
            = MatrixContent.init.frames[(0 : Int).toNat]?
        ∧ (MatrixContent.init.frame (some 0)).isSome = true)
    ∧ (-(MatrixContent.init.frames.length : Int) ≤ (0 : Int) → (0 : Int) < 0 →
        MatrixContent.init.frame (some 0)
            = MatrixContent.init.frames[((0 : Int) + MatrixContent.init.frames.length).toNat]?
        ∧ (MatrixContent.init.frame (some 0)).isSome = true)
    ∧ ((MatrixContent.init.frames.length : Int) ≤ (0 : Int)
        ∨ (0 : Int) < -(MatrixContent.init.frames.length : Int) →
        MatrixContent.init.frame (some 0) = none) :=
  matrix_frame_lookup MatrixContent.init 0 (by decide)

/-- C10: removing an element that is not among the frame's elements fails
with the Not-Found error of Python list.remove (a ValueError); the failure
is modelled as none, and the frame value is untouched since list.remove
raises before mutating anything. -/
theorem frame_remove_absent (f : Frame) (e : ContentPiece) (h : e ∉ f.elements) :
    f.remove e = none := by
  unfold Frame.remove
  rw [if_neg h]

/-- C10, witness: removing a piece the frame never held fails. -/
theorem frame_remove_absent_witness :
    pieceC ∉ frameAB.elements ∧ frameAB.remove pieceC = none :=
  ⟨by decide, frame_remove_absent frameAB pieceC (by decide)⟩

end RemoteMatrix
